import Mathlib

/-!
Shallow embedding of the browser worker script
(`create-aleo-app/template-react-zkml/src/workers/worker.js`) and of the SDK
re-export module (`sdk/src/index.js`).

The worker delegates all cryptography to the external `@aleohq/sdk` package.
Here every SDK call is abstracted by an environment of result functions
(`Env`), and each worker method is embedded as a pure function returning its
result, the updated module-level key provider, and the ordered trace of SDK
calls it makes (a list of `Event`s, in program order).
-/

namespace Worker

/-- Modelled from the spec: the SDK's `AleoKeyProvider` (its implementation is
not among the staged sources) keeps a proving/verifying key cache,
content-addressed by cache-key strings, together with the `useCache` flag. -/
structure AleoKeyProvider where
  cacheEnabled : Bool
  cache : List (String × (String × String))
deriving DecidableEq

/-- Modelled from the spec: `useCache` turns key caching on or off. -/
def useCache (kp : AleoKeyProvider) (flag : Bool) : AleoKeyProvider :=
  { kp with cacheEnabled := flag }

/-- Modelled from the spec: `containsKeys` tests whether the cache holds an
entry for the given cache key. -/
def containsKeys (kp : AleoKeyProvider) (cacheKey : String) : Bool :=
  (List.lookup cacheKey kp.cache).isSome

/-- Modelled from the spec: `cacheKeys` stores a proving/verifying key pair
under the given cache key. -/
def cacheKeys (kp : AleoKeyProvider) (cacheKey : String)
    (keys : String × String) : AleoKeyProvider :=
  { kp with cache := (cacheKey, keys) :: kp.cache }

/-- Abstract data of an SDK `ExecutionResponse`: its outputs, its string
rendering, and the proving/verifying keys that `getKeys(programId,
functionName)` exposes. -/
structure ExecutionResponseData where
  outputs : List String
  execString : String
  provingKeyOf : String → String → String
  verifyingKeyOf : String → String → String

/-- The results the external SDK hands back to the worker. The embedding is
parametric in them: none of that logic lives in this repository. -/
structure Env where
  /-- `Program.fromString(source).id()`. -/
  programId : String → String
  /-- Key pair returned by `programManager.synthesizeKeys(source, fn, ...)`. -/
  synthKeysResult : String → String → String × String
  /-- Response of `programManager.executeOffline(source, fn, inputs,
  proveExecution, ..., cacheKey, ..., cacheFunctionKeys)`. -/
  execOffline : String → String → List String → Bool → String → Bool →
    ExecutionResponseData
  /-- `ExecutionResponse.fromString`. -/
  execFromString : String → ExecutionResponseData
  /-- `programManager.verifyExecution`. -/
  verifyResult : ExecutionResponseData → Bool
  /-- Transaction id returned by `programManager.deploy(program, fee)`. -/
  deployResult : String → ℚ → String
  /-- The fresh `new PrivateKey()` observed by `getPrivateKey`. -/
  freshPrivateKey : String

/-- One observable SDK call of the worker script. -/
inductive Event where
  | initThreadPool : Event
  | useCacheCall : Bool → Event
  | fetchKeysCall : String → String → Event
  | programFromString : String → Event
  | pmSynthesizeKeys : String → String → Event
  | containsKeysCall : String → Bool → Event
  | cacheKeysCall : String → Event
  | executeOfflineCall : String → String → List String → Bool → String → Bool → Event
  | getKeysCall : String → String → Event
  | getOutputsCall : Event
  | toStringCall : Event
  | newPrivateKeyCall : Event
  | execFromStringCall : String → Event
  | verifyExecutionCall : Event
  | newAccountCall : Option String → Event
  | deployCall : String → ℚ → Event
  | exposeCall : List String → Event
deriving DecidableEq

/-- The cache key worker.js builds in both `synthesizeKeys` and
`localProgramExecution`: `program.id() + "/" + aleoFunction`. -/
def cacheKeyOf (env : Env) (program_source aleoFunction : String) : String :=
  env.programId program_source ++ "/" ++ aleoFunction

/-- The argument of every `cacheKeys` call in a trace. -/
def cacheKeysArgs (t : List Event) : List String :=
  t.filterMap fun e => match e with
    | Event.cacheKeysCall k => some k
    | _ => none

/-- The argument of every `containsKeys` lookup in a trace. -/
def containsKeysArgs (t : List Event) : List String :=
  t.filterMap fun e => match e with
    | Event.containsKeysCall k _ => some k
    | _ => none

/-- The `proveExecution` flag of every `executeOffline` call in a trace. -/
def proveFlags (t : List Event) : List Bool :=
  t.filterMap fun e => match e with
    | Event.executeOfflineCall _ _ _ pr _ _ => some pr
    | _ => none

/-- The `cacheFunctionKeys` flag of every `executeOffline` call in a trace. -/
def cacheFunctionKeysFlags (t : List Event) : List Bool :=
  t.filterMap fun e => match e with
    | Event.executeOfflineCall _ _ _ _ _ cfk => some cfk
    | _ => none

/-- The fee of every `deploy` call in a trace. -/
def deployFees (t : List Event) : List ℚ :=
  t.filterMap fun e => match e with
    | Event.deployCall _ fee => some fee
    | _ => none

/-- The private-key option of every `new Account(...)` construction in a
trace. -/
def accountKeys (t : List Event) : List (Option String) :=
  t.filterMap fun e => match e with
    | Event.newAccountCall k => some k
    | _ => none

/-- Three events occur in a trace in the given order. -/
def stagesInOrder (t : List Event) (a b c : Event) : Prop :=
  ∃ pre mid1 mid2 post, t = pre ++ a :: mid1 ++ b :: mid2 ++ c :: post

/-- worker.js `synthesizeKeys`: parse the program, synthesize keys through
the SDK (passing the module's `sample_inputs` and a fresh private key, both
abstracted into `Env.synthKeysResult`), and cache them under
`program.id()/aleoFunction`. -/
def synthesizeKeys (env : Env) (kp : AleoKeyProvider)
    (program_source aleoFunction : String) : AleoKeyProvider × List Event :=
  let cacheKey := cacheKeyOf env program_source aleoFunction
  let keys := env.synthKeysResult program_source aleoFunction
  (cacheKeys kp cacheKey keys,
   [Event.programFromString program_source,
    Event.pmSynthesizeKeys program_source aleoFunction,
    Event.cacheKeysCall cacheKey])

/-- worker.js `localProgramExecution`: parse the program, look the cache key
up, run `executeOffline` (with `proveExecution` literally `true`), cache the
synthesized keys only when the lookup missed, then extract the outputs and
the execution string and return the pair. -/
def localProgramExecution (env : Env) (kp : AleoKeyProvider)
    (program_source aleoFunction : String) (inputs : List String) :
    (List String × String) × AleoKeyProvider × List Event :=
  let cacheKey := cacheKeyOf env program_source aleoFunction
  let hadKeys := containsKeys kp cacheKey
  let cacheFunctionKeys := !hadKeys
  let executionResponse :=
    env.execOffline program_source aleoFunction inputs true cacheKey cacheFunctionKeys
  let kpAfter :=
    if cacheFunctionKeys then
      cacheKeys kp cacheKey
        (executionResponse.provingKeyOf (env.programId program_source) aleoFunction,
         executionResponse.verifyingKeyOf (env.programId program_source) aleoFunction)
    else kp
  ((executionResponse.outputs, executionResponse.execString), kpAfter,
   [Event.programFromString program_source,
    Event.containsKeysCall cacheKey hadKeys,
    Event.executeOfflineCall program_source aleoFunction inputs true cacheKey
      cacheFunctionKeys]
   ++ (if cacheFunctionKeys then
        [Event.getKeysCall (env.programId program_source) aleoFunction,
         Event.cacheKeysCall cacheKey]
      else [])
   ++ [Event.getOutputsCall, Event.toStringCall])

/-- worker.js `getPrivateKey`: a fresh private key, proxied to the caller. -/
def getPrivateKey (env : Env) : String × List Event :=
  (env.freshPrivateKey, [Event.newPrivateKeyCall])

/-- worker.js `verifyExecution`: parse the execution string with
`ExecutionResponse.fromString` and verify it with the program manager. -/
def verifyExecution (env : Env) (execution : String) : Bool × List Event :=
  (env.verifyResult (env.execFromString execution),
   [Event.execFromStringCall execution, Event.verifyExecutionCall])

/-- The module-level state of the worker: the key provider held by the
module's program manager. -/
structure WorkerState where
  keyProvider : AleoKeyProvider

/-- worker.js `deployProgram`: builds its own fresh key provider, network
client, record provider, account (from the hardcoded placeholder private key
"user1PrivateKey") and program manager — all local constants that shadow the
module-level ones — and deploys with the fixed fee of 1.9 Aleo credits.
The module state `s` is passed through untouched. -/
def deployProgram (env : Env) (s : WorkerState) (program : String) :
    String × WorkerState × List Event :=
  let fee : ℚ := 1.9
  (env.deployResult program fee, s,
   [Event.useCacheCall true,
    Event.newAccountCall (some "user1PrivateKey"),
    Event.deployCall program fee])

/-- The five methods worker.js hands to `expose(...)`, in source order. -/
def workerMethods : List String :=
  ["deployProgram", "getPrivateKey", "localProgramExecution", "synthesizeKeys",
   "verifyExecution"]

/-- URL of the prebuilt prover key fetched during module evaluation. -/
def proverKeyUrl : String :=
  "https://pub-65a47b199b944d48a057ca6603a415a2.r2.dev/tree_mnist_2.prover.30e265c"

/-- URL of the prebuilt verifier key fetched during module evaluation. -/
def verifierKeyUrl : String :=
  "https://pub-65a47b199b944d48a057ca6603a415a2.r2.dev/tree_mnist_2.verifier.17db860"

/-- Module evaluation of worker.js: the thread pool is started, a key
provider is created with caching enabled (`useCache(true)`, twice, around the
asynchronous `fetchKeys` kick-off), an account is created and set on the
program manager, and the five methods are exposed. -/
def moduleInit : WorkerState × List Event :=
  let kp0 : AleoKeyProvider := { cacheEnabled := false, cache := [] }
  let kp1 := useCache kp0 true
  let kp2 := useCache kp1 true
  ({ keyProvider := kp2 },
   [Event.initThreadPool,
    Event.useCacheCall true,
    Event.fetchKeysCall proverKeyUrl verifierKeyUrl,
    Event.useCacheCall true,
    Event.newAccountCall none,
    Event.exposeCall workerMethods])

/-- A concrete demonstration response, used to instantiate theorems with
hypotheses at concrete inputs. -/
def respDemo : ExecutionResponseData :=
  { outputs := ["3u32"], execString := "executionDemo",
    provingKeyOf := fun _ _ => "pkDemo",
    verifyingKeyOf := fun _ _ => "vkDemo" }

/-- A concrete demonstration environment. -/
def envDemo : Env :=
  { programId := fun _ => "demo.aleo",
    synthKeysResult := fun _ _ => ("pkDemo", "vkDemo"),
    execOffline := fun _ _ _ _ _ _ => respDemo,
    execFromString := fun _ => respDemo,
    verifyResult := fun _ => true,
    deployResult := fun _ _ => "txDemo",
    freshPrivateKey := "APrivateKeyDemo" }

/-- A concrete key provider already holding keys for `demo.aleo/main`. -/
def kpDemo : AleoKeyProvider :=
  { cacheEnabled := true, cache := [("demo.aleo/main", ("pkDemo", "vkDemo"))] }

end Worker

namespace SdkIndex

/-- A line of the ES-module source `sdk/src/index.js`. -/
inductive JsLine where
  | importLine : List String → String → JsLine
  | exportLine : List String → JsLine
  | commentLine : String → JsLine
deriving DecidableEq

/-- `sdk/src/index.js`, line by line: four imports, one export and the
source-map comment. -/
def indexJs : List JsLine :=
  [JsLine.importLine ["Account"] "./account",
   JsLine.importLine ["AleoNetworkClient"] "./node_connection",
   JsLine.importLine ["DevelopmentClient"] "./development_client",
   JsLine.importLine ["Address", "PrivateKey", "Signature", "ViewKey"]
     "@aleohq/wasm",
   JsLine.exportLine ["Account", "Address", "AleoNetworkClient",
     "DevelopmentClient", "PrivateKey", "Signature", "ViewKey"],
   JsLine.commentLine "# sourceMappingURL=index.js.map"]

/-- All names a module exports. -/
def exportedNames (m : List JsLine) : List String :=
  m.foldr (fun l acc => match l with
    | JsLine.exportLine ns => ns ++ acc
    | _ => acc) []

/-- The module specifier a name is drawn from, if any. -/
def importedFrom (m : List JsLine) (name : String) : Option String :=
  m.foldr (fun l acc => match l with
    | JsLine.importLine ns src => if name ∈ ns then some src else acc
    | _ => acc) none

end SdkIndex

namespace Worker

/-- Helper: the call trace of `localProgramExecution` when the key provider
already holds keys for the cache key. -/
theorem localExecution_trace_cached (env : Env) (kp : AleoKeyProvider)
    (s f : String) (ins : List String)
    (h : containsKeys kp (cacheKeyOf env s f) = true) :
    (localProgramExecution env kp s f ins).2.2 =
      [Event.programFromString s,
       Event.containsKeysCall (cacheKeyOf env s f) true,
       Event.executeOfflineCall s f ins true (cacheKeyOf env s f) false,
       Event.getOutputsCall, Event.toStringCall] := by
  simp [localProgramExecution, h]

/-- Helper: the call trace of `localProgramExecution` when the key provider
does not yet hold keys for the cache key. -/
theorem localExecution_trace_uncached (env : Env) (kp : AleoKeyProvider)
    (s f : String) (ins : List String)
    (h : containsKeys kp (cacheKeyOf env s f) = false) :
    (localProgramExecution env kp s f ins).2.2 =
      [Event.programFromString s,
       Event.containsKeysCall (cacheKeyOf env s f) false,
       Event.executeOfflineCall s f ins true (cacheKeyOf env s f) true,
       Event.getKeysCall (env.programId s) f,
       Event.cacheKeysCall (cacheKeyOf env s f),
       Event.getOutputsCall, Event.toStringCall] := by
  simp [localProgramExecution, h]

end Worker

namespace Worker

/-- C1: the worker script exposes exactly five remote-callable methods through
the message-passing proxy — deployProgram, synthesizeKeys,
localProgramExecution, getPrivateKey and verifyExecution — and no others. -/
theorem worker_exposes_exactly_five_methods :
    workerMethods.Nodup ∧ workerMethods.length = 5 ∧
    Event.exposeCall workerMethods ∈ moduleInit.2 ∧
    ∀ m, m ∈ workerMethods ↔
      (m = "deployProgram" ∨ m = "synthesizeKeys" ∨ m = "localProgramExecution" ∨
       m = "getPrivateKey" ∨ m = "verifyExecution") := by
  refine ⟨by decide, by decide, by decide, fun m => ?_⟩
  simp only [workerMethods, List.mem_cons, List.not_mem_nil, or_false]
  tauto

/-- C2: every key the worker caches is content-addressed by program id plus
function name: in `synthesizeKeys` the one `cacheKeys` call uses exactly
`program.id()/aleoFunction`; in `localProgramExecution` the one `containsKeys`
lookup uses exactly that key, and a `cacheKeys` call happens only on a cache
miss, again with exactly that key. -/
theorem cache_keys_content_addressed (env : Env) (kp : AleoKeyProvider)
    (program_source aleoFunction : String) (inputs : List String) :
    cacheKeysArgs (synthesizeKeys env kp program_source aleoFunction).2 =
      [cacheKeyOf env program_source aleoFunction] ∧
    containsKeysArgs
        (localProgramExecution env kp program_source aleoFunction inputs).2.2 =
      [cacheKeyOf env program_source aleoFunction] ∧
    cacheKeysArgs
        (localProgramExecution env kp program_source aleoFunction inputs).2.2 =
      (if containsKeys kp (cacheKeyOf env program_source aleoFunction) then []
       else [cacheKeyOf env program_source aleoFunction]) := by
  refine ⟨by simp [synthesizeKeys, cacheKeysArgs], ?_, ?_⟩ <;>
    cases h : containsKeys kp (cacheKeyOf env program_source aleoFunction) <;>
      simp [localProgramExecution, containsKeysArgs, cacheKeysArgs, h]

/-- C3: when the key provider already holds keys for
`program.id()/aleoFunction`, `localProgramExecution` passes
`cacheFunctionKeys = false` to `executeOffline`, performs no `cacheKeys`
call, and leaves the key provider unchanged. -/
theorem no_synthesis_when_keys_cached (env : Env) (kp : AleoKeyProvider)
    (program_source aleoFunction : String) (inputs : List String)
    (h : containsKeys kp (cacheKeyOf env program_source aleoFunction) = true) :
    cacheFunctionKeysFlags
        (localProgramExecution env kp program_source aleoFunction inputs).2.2 =
      [false] ∧
    cacheKeysArgs
        (localProgramExecution env kp program_source aleoFunction inputs).2.2 = [] ∧
    (localProgramExecution env kp program_source aleoFunction inputs).2.1 = kp := by
  refine ⟨?_, ?_, ?_⟩ <;> simp [localProgramExecution, cacheFunctionKeysFlags,
    cacheKeysArgs, h]

/-- C3 witness: with the demonstration provider already holding keys for
`demo.aleo/main`, the cached-path execution changes nothing. -/
theorem no_synthesis_when_keys_cached_witness :
    containsKeys kpDemo (cacheKeyOf envDemo "programDemo" "main") = true ∧
    (cacheFunctionKeysFlags
        (localProgramExecution envDemo kpDemo "programDemo" "main" []).2.2 =
      [false] ∧
    cacheKeysArgs
        (localProgramExecution envDemo kpDemo "programDemo" "main" []).2.2 = [] ∧
    (localProgramExecution envDemo kpDemo "programDemo" "main" []).2.1 = kpDemo) :=
  ⟨by decide,
   no_synthesis_when_keys_cached envDemo kpDemo "programDemo" "main" [] (by decide)⟩

/-- C4: `localProgramExecution` runs program parsing first
(`Program.fromString`), then the execution (`executeOffline`), then output
extraction (`getOutputs`) last among the named stages, and returns the pair
of the outputs and the execution string. -/
theorem local_execution_stage_order (env : Env) (kp : AleoKeyProvider)
    (program_source aleoFunction : String) (inputs : List String) :
    stagesInOrder (localProgramExecution env kp program_source aleoFunction inputs).2.2
      (Event.programFromString program_source)
      (Event.executeOfflineCall program_source aleoFunction inputs true
        (cacheKeyOf env program_source aleoFunction)
        (!containsKeys kp (cacheKeyOf env program_source aleoFunction)))
      Event.getOutputsCall ∧
    (localProgramExecution env kp program_source aleoFunction inputs).1 =
      ((env.execOffline program_source aleoFunction inputs true
          (cacheKeyOf env program_source aleoFunction)
          (!containsKeys kp (cacheKeyOf env program_source aleoFunction))).outputs,
       (env.execOffline program_source aleoFunction inputs true
          (cacheKeyOf env program_source aleoFunction)
          (!containsKeys kp (cacheKeyOf env program_source aleoFunction))).execString) := by
  cases h : containsKeys kp (cacheKeyOf env program_source aleoFunction) with
  | true =>
    refine ⟨?_, by simp [localProgramExecution, h]⟩
    rw [localExecution_trace_cached env kp program_source aleoFunction inputs h]
    exact ⟨[], [Event.containsKeysCall (cacheKeyOf env program_source aleoFunction) true],
      [], [Event.toStringCall], by simp [h]⟩
  | false =>
    refine ⟨?_, by simp [localProgramExecution, h]⟩
    rw [localExecution_trace_uncached env kp program_source aleoFunction inputs h]
    exact ⟨[], [Event.containsKeysCall (cacheKeyOf env program_source aleoFunction) false],
      [Event.getKeysCall (env.programId program_source) aleoFunction,
       Event.cacheKeysCall (cacheKeyOf env program_source aleoFunction)],
      [Event.toStringCall], by simp [h]⟩

end Worker

namespace SdkIndex

/-- C5 counterexample: the re-export module is not two lines long — the
source `sdk/src/index.js` has six lines (four imports, one export, one
source-map comment). -/
theorem index_module_not_two_lines : ¬ indexJs.length = 2 := by decide

/-- C5 amended: the re-export module is six lines long (four import lines,
one export line and the source-map comment) and re-exports exactly Account,
Address, AleoNetworkClient, DevelopmentClient, PrivateKey, Signature and
ViewKey, with Address, PrivateKey, Signature and ViewKey drawn from the WASM
binding package `@aleohq/wasm` and Account, AleoNetworkClient and
DevelopmentClient from the SDK's own sibling modules. -/
theorem index_reexports_exactly_seven :
    indexJs.length = 6 ∧
    exportedNames indexJs = ["Account", "Address", "AleoNetworkClient",
      "DevelopmentClient", "PrivateKey", "Signature", "ViewKey"] ∧
    importedFrom indexJs "Address" = some "@aleohq/wasm" ∧
    importedFrom indexJs "PrivateKey" = some "@aleohq/wasm" ∧
    importedFrom indexJs "Signature" = some "@aleohq/wasm" ∧
    importedFrom indexJs "ViewKey" = some "@aleohq/wasm" ∧
    importedFrom indexJs "Account" = some "./account" ∧
    importedFrom indexJs "AleoNetworkClient" = some "./node_connection" ∧
    importedFrom indexJs "DevelopmentClient" = some "./development_client" ∧
    ((exportedNames indexJs).all
      (fun n => (importedFrom indexJs n).isSome)) = true := by
  decide

end SdkIndex

namespace Worker

/-- C6: key caching is wired up during module evaluation, before any exposed
method can run: the thread pool start and `useCache(true)` precede
`expose(workerMethods)` in the module trace, the module-level key provider
ends evaluation with caching enabled, and none of the worker methods ever
flips that flag back off (each preserves `cacheEnabled`). -/
theorem caching_enabled_before_any_method :
    moduleInit.1.keyProvider.cacheEnabled = true ∧
    stagesInOrder moduleInit.2 Event.initThreadPool (Event.useCacheCall true)
      (Event.exposeCall workerMethods) ∧
    (∀ env kp program_source aleoFunction inputs,
      ((localProgramExecution env kp program_source aleoFunction inputs).2.1).cacheEnabled =
        kp.cacheEnabled) ∧
    (∀ env kp program_source aleoFunction,
      ((synthesizeKeys env kp program_source aleoFunction).1).cacheEnabled =
        kp.cacheEnabled) ∧
    (∀ env s program, (deployProgram env s program).2.1 = s) := by
  refine ⟨rfl,
    ⟨[], [], [Event.fetchKeysCall proverKeyUrl verifierKeyUrl,
      Event.useCacheCall true, Event.newAccountCall none], [], rfl⟩,
    fun env kp program_source aleoFunction inputs => ?_,
    fun env kp program_source aleoFunction => rfl,
    fun env s program => rfl⟩
  cases h : containsKeys kp (cacheKeyOf env program_source aleoFunction) <;>
    simp [localProgramExecution, cacheKeys, h]

/-- C7: `deployProgram` always deploys with the fixed fee of 1.9 Aleo credits
and an account built from the hardcoded placeholder private key
"user1PrivateKey"; neither depends on the program argument or the module
state. -/
theorem deploy_fixed_fee_and_account (env : Env) (s : WorkerState)
    (program : String) :
    deployFees (deployProgram env s program).2.2 = [(1.9 : ℚ)] ∧
    (1.9 : ℚ) = 19 / 10 ∧
    accountKeys (deployProgram env s program).2.2 = [some "user1PrivateKey"] ∧
    (deployProgram env s program).1 = env.deployResult program (1.9 : ℚ) := by
  exact ⟨rfl, by norm_num, rfl, rfl⟩

/-- C8: `deployProgram` works entirely on fresh local objects: the module
state (and with it the worker's key cache used by `synthesizeKeys` and
`localProgramExecution`) passes through unchanged, its result and trace do
not depend on the module state, and its trace contains no `cacheKeys` call. -/
theorem deploy_touches_no_module_state (env : Env) (s t : WorkerState)
    (program : String) :
    (deployProgram env s program).2.1 = s ∧
    (deployProgram env s program).1 = (deployProgram env t program).1 ∧
    (deployProgram env s program).2.2 = (deployProgram env t program).2.2 ∧
    cacheKeysArgs (deployProgram env s program).2.2 = [] ∧
    containsKeysArgs (deployProgram env s program).2.2 = [] := by
  exact ⟨rfl, rfl, rfl, rfl, rfl⟩

/-- C9: every `executeOffline` call made by `localProgramExecution` passes
`proveExecution = true`, and `verifyExecution` checks an execution string by
first parsing it with `ExecutionResponse.fromString` and then verifying the
parsed response. -/
theorem execution_always_requests_proof (env : Env) (kp : AleoKeyProvider)
    (program_source aleoFunction : String) (inputs : List String)
    (execution : String) :
    proveFlags
        (localProgramExecution env kp program_source aleoFunction inputs).2.2 =
      [true] ∧
    (verifyExecution env execution).1 =
      env.verifyResult (env.execFromString execution) ∧
    Event.execFromStringCall execution ∈ (verifyExecution env execution).2 := by
  refine ⟨?_, rfl, by simp [verifyExecution]⟩
  cases h : containsKeys kp (cacheKeyOf env program_source aleoFunction) <;>
    simp [localProgramExecution, proveFlags, h]

end Worker
